import Mathlib

/-!
# Verification of the sns-mobile pagination and broadcast engines

Shallow embedding of `lib/interface.js` (and the extended revision of the
same file shipped in this repository, which adds topics, subscriptions and
`publishToTopic`).  The asynchronous callback-passing JavaScript is embedded
as pure functions:

* the SNS backend is modelled as a list of responses, consumed in call
  order — each `_getUsers` / `_getApplications` request consumes the next
  element (`Except ε (Page α)`: a transport error or a page of items plus a
  `NextToken` field);
* the JavaScript value stored in `res.NextToken` is modelled by `JSVal`
  (`undefined`, `null`, or a string), because the loop guard
  `typeof nextToken !== 'undefined' && nextToken !== null` and the
  truthiness test `if (nextToken)` distinguish exactly these cases;
* a run of an operation is summarised by the arguments of its single
  callback invocation, and for `broadcastMessage` by a linear trace of
  settled events (`BEvent`), mirroring the synchronisation points that
  `async.whilst` / `async.each` impose.
-/

/-- A JavaScript value in `NextToken` position: `undefined`, `null`, or a
string.  These are the only values the AWS SDK stores there, and the only
distinctions the source inspects. -/
inductive JSVal where
  | undefined
  | null
  | str (s : String)
  deriving DecidableEq, Repr

/-- The `async.whilst` guard of `getUsers` / `getApplications` /
`broadcastMessage`: `typeof nextToken !== 'undefined' && nextToken !== null`.
Note that the empty string passes this test. -/
def tokenPresent : JSVal → Bool
  | .undefined => false
  | .null => false
  | .str _ => true

/-- The token the next request actually carries: `_getUsers` does
`if (nextToken) params.NextToken = nextToken`, so a falsy token (including
the empty string) is omitted from the request parameters. -/
def reqToken : JSVal → Option String
  | .undefined => none
  | .null => none
  | .str s => if s = "" then none else some s

/-- One page as returned by `listEndpointsByPlatformApplication` /
`listPlatformApplications`: the item array plus the `NextToken` field. -/
structure Page (α : Type) where
  Endpoints : List α
  NextToken : JSVal
  deriving DecidableEq, Repr

/-- How a `getUsers` run ends: `done errArg dataArg` records the two
arguments of the single `callback(err, users)` invocation (`none` data
models the literal `null` passed on a first-fetch failure); `incomplete`
marks a run whose pending backend request never receives a response (the
modelled response list ran out). -/
inductive RunOutcome (ε α : Type) where
  | done (errArg : Option ε) (dataArg : Option (List α))
  | incomplete
  deriving DecidableEq, Repr

/-- The `async.whilst` loop of `Interface.prototype.getUsers`
(`lib/interface.js:156-171`): while the token is present, issue another
`_getUsers` call, abort the loop on error (the final whilst callback then
runs `callback(err, users)` with the accumulated array), otherwise append
`res.Endpoints` and continue.  Returns the outcome plus the list of token
parameters of the requests issued (one entry per backend call made). -/
def getUsersAux {ε α : Type} :
    List (Except ε (Page α)) → JSVal → List α →
    RunOutcome ε α × List (Option String)
  | backend, token, acc =>
    if tokenPresent token then
      match backend with
      | [] => (.incomplete, [])
      | .error e :: _ => (.done (some e) (some acc), [reqToken token])
      | .ok p :: rest =>
        let r := getUsersAux rest p.NextToken (acc ++ p.Endpoints)
        (r.1, reqToken token :: r.2)
    else
      (.done none (some acc), [])

/-- `Interface.prototype.getUsers` (`lib/interface.js:145-173`): the first
`_getUsers(null, ...)` call; on error `callback(err, null)`, otherwise seed
the accumulator with the first page and enter the whilst loop.
`Interface.prototype.getApplications` (`lib/interface.js:217-245`) is
line-for-line the same traversal with `Endpoints` renamed to
`PlatformApplications`, so this one definition serves both. -/
def getUsers {ε α : Type} (backend : List (Except ε (Page α))) :
    RunOutcome ε α × List (Option String) :=
  match backend with
  | [] => (.incomplete, [])
  | .error e :: _ => (.done (some e) none, [none])
  | .ok p :: rest =>
    let r := getUsersAux rest p.NextToken p.Endpoints
    (r.1, none :: r.2)

example :
    getUsers (ε := String) [Except.ok ⟨["a"], JSVal.str "t"⟩, Except.error "boom"]
      = (.done (some "boom") (some ["a"]), [none, some "t"]) := by decide

example :
    getUsers (ε := String)
      [Except.ok ⟨["a"], JSVal.str ""⟩, Except.ok ⟨([] : List String), JSVal.undefined⟩]
      = (.done none (some ["a"]), [none, none]) := by decide

/-- One observable step of a `broadcastMessage` run, in the order the
synchronisation points of the source force them to happen:
`listReq tok` — a `_getUsers` request is issued carrying `tok`;
`bStart` / `bEnd` — the `broadcastStart` / `broadcastEnd` events;
`sendOk a` / `sendFail a e` — the send to endpoint `a` settled, emitting
`messageSent` resp. `sendFailed` (`async.each` joins all of a page's sends
before its final callback runs, so each settled send is one trace event);
`cbDone err` — the completion callback fires with error argument `err`. -/
inductive BEvent (ε σ α : Type) where
  | listReq (tok : Option String)
  | bStart
  | bEnd
  | sendOk (target : α)
  | sendFail (target : α) (e : σ)
  | cbDone (err : Option ε)
  deriving DecidableEq, Repr

/-- `Interface.prototype._broadcastMessage` (`lib/interface.js:321-332`):
`async.each` over the page's endpoints; each `sendMessage` settles with
`messageSent` or `sendFailed` and its error is swallowed (`cb()` without
arguments), so the page block always completes. -/
def broadcastPage {ε σ α : Type} (send : α → Except σ Unit) (endpoints : List α) :
    List (BEvent ε σ α) :=
  endpoints.map fun a =>
    match send a with
    | .ok _ => .sendOk a
    | .error e => .sendFail a e

/-- The `async.whilst` loop of `Interface.prototype.broadcastMessage`
(`lib/interface.js:352-367`): while the token is present, issue another
`_getUsers` request; a listing error aborts the loop, after which the whilst
completion handler emits `broadcastEnd` and calls `callback(err)`; a page
response fans the message out to the page before looping.  When the token is
exhausted the same handler emits `broadcastEnd` and calls `callback` with no
error.  An unanswered request ends the trace (nothing further can run). -/
def broadcastAux {ε σ α : Type} (send : α → Except σ Unit) :
    List (Except ε (Page α)) → JSVal → List (BEvent ε σ α)
  | backend, token =>
    if tokenPresent token then
      match backend with
      | [] => [.listReq (reqToken token)]
      | .error e :: _ => [.listReq (reqToken token), .bEnd, .cbDone (some e)]
      | .ok p :: rest =>
        .listReq (reqToken token) ::
          (broadcastPage send p.Endpoints ++ broadcastAux send rest p.NextToken)
    else
      [.bEnd, .cbDone none]

/-- `Interface.prototype.broadcastMessage` (`lib/interface.js:341-370`): the
first `_getUsers(null, ...)` call; on error it returns `callback(err, null)`
immediately — before `broadcastStart` is emitted; on success it emits
`broadcastStart`, fans out to the first page, and enters the whilst loop. -/
def broadcastMessage {ε σ α : Type} (send : α → Except σ Unit)
    (backend : List (Except ε (Page α))) : List (BEvent ε σ α) :=
  match backend with
  | [] => [.listReq none]
  | .error e :: _ => [.listReq none, .cbDone (some e)]
  | .ok p :: rest =>
    .listReq none :: .bStart ::
      (broadcastPage send p.Endpoints ++ broadcastAux send rest p.NextToken)

/-- The whilst loop starting from `token` receives a response for every
request it issues (the modelled response list never runs out mid-loop). -/
def auxComplete {ε α : Type} : List (Except ε (Page α)) → JSVal → Bool
  | backend, token =>
    if tokenPresent token then
      match backend with
      | [] => false
      | .error _ :: _ => true
      | .ok p :: rest => auxComplete rest p.NextToken
    else
      true

/-- A whole run receives a response for every request it issues. -/
def runComplete {ε α : Type} : List (Except ε (Page α)) → Bool
  | [] => false
  | .error _ :: _ => true
  | .ok p :: rest => auxComplete rest p.NextToken

/-- Recognises a listing request in a trace. -/
def isListReq {ε σ α : Type} : BEvent ε σ α → Bool
  | .listReq _ => true
  | _ => false

/-- Recognises a completion callback carrying an error. -/
def isCbDoneErr {ε σ α : Type} : BEvent ε σ α → Bool
  | .cbDone (some _) => true
  | _ => false

/-- Recognises a settled send (successful or failed). -/
def isSendEvent {ε σ α : Type} : BEvent ε σ α → Bool
  | .sendOk _ => true
  | .sendFail _ _ => true
  | _ => false

/-- One page block of a broadcast trace: all of the page's sends settle,
then the next listing request goes out. -/
def pageBlock {ε σ α : Type} (send : α → Except σ Unit)
    (blk : List α × Option String) : List (BEvent ε σ α) :=
  broadcastPage send blk.1 ++ [.listReq blk.2]

example :
    broadcastMessage (ε := String) (σ := String)
      (fun a => if a = "a" then Except.error "f" else Except.ok ())
      [Except.ok ⟨["a", "b"], JSVal.str "t"⟩, Except.ok ⟨["c"], JSVal.null⟩]
      = [.listReq none, .bStart, .sendFail "a" "f", .sendOk "b",
         .listReq (some "t"), .sendOk "c", .bEnd, .cbDone none] := by decide

example :
    broadcastMessage (ε := String) (σ := String) (α := String)
      (fun _ => Except.ok ()) [Except.error "boom"]
      = [.listReq none, .cbDone (some "boom")] := by decide

/-- A JavaScript value as inspected by `publishToTopic`,
`convertToGcmFormat` and `convertToApnsFormat`: primitives plus objects as
ordered field lists.  Arrays, functions and `NaN` never reach these code
paths in the source's documented usage and are not modelled. -/
inductive JVal where
  | undefined
  | null
  | bool (b : Bool)
  | num (n : Int)
  | str (s : String)
  | obj (fields : List (String × JVal))

/-- JavaScript property access `o[k]` for the object case: the first field
with the requested name, `undefined` when absent or when the receiver is a
non-object primitive. -/
def getProp : JVal → String → JVal
  | .obj fields, k =>
    match fields.find? (fun f => f.1 = k) with
    | some f => f.2
    | none => .undefined
  | _, _ => .undefined

/-- JavaScript truthiness for the modelled values: `undefined`, `null`,
`false`, `0` and `""` are falsy; every object is truthy. -/
def truthy : JVal → Bool
  | .undefined => false
  | .null => false
  | .bool b => b
  | .num n => !(n = 0)
  | .str s => !(s = "")
  | .obj _ => true

/-- `typeof v === 'string'`. -/
def isString : JVal → Bool
  | .str _ => true
  | _ => false

/-- `typeof v === 'object'` — in JavaScript this is also true of `null`. -/
def typeofObject : JVal → Bool
  | .null => true
  | .obj _ => true
  | _ => false

/-- JSON string quoting with escaping of backslash and double quote (the
only escapes the values in this development can need). -/
def jsonQuote (s : String) : String :=
  "\"" ++ String.join (s.toList.map fun c =>
    if c = '\\' then "\\\\" else if c = '"' then "\\\"" else String.singleton c) ++ "\""

mutual

/-- `JSON.stringify` on the modelled values.  Field values that are
`undefined` are dropped, as in JavaScript; a top-level `undefined` cannot
occur in this development. -/
def stringifyJVal : JVal → String
  | .undefined => "null"
  | .null => "null"
  | .bool true => "true"
  | .bool false => "false"
  | .num n => toString n
  | .str s => jsonQuote s
  | .obj fields => "\x7b" ++ String.intercalate "," (stringifyFields fields) ++ "\x7d"

/-- Renders an object's fields, dropping `undefined` values. -/
def stringifyFields : List (String × JVal) → List String
  | [] => []
  | (_, .undefined) :: rest => stringifyFields rest
  | (k, v) :: rest => (jsonQuote k ++ ":" ++ stringifyJVal v) :: stringifyFields rest

end

example : stringifyJVal (.obj [("GCM", .str "")]) = "\x7b\"GCM\":\"\"\x7d" := by decide

/-- `validateMessageStructure` nested in `Interface.prototype.publishToTopic`:
`if (!message.default) return false; if (typeof message.default !== 'string')
return false; return true`. -/
def validateMessageStructure (message : JVal) : Bool :=
  if !truthy (getProp message "default") then false
  else if !isString (getProp message "default") then false
  else true

/-- What `publishToTopic` did before any asynchronous continuation runs:
either it returned `callback(new Error(...))` without touching the backend,
or it issued the one `sns.publish` call (whose request body is
`JSON.stringify(message)`). -/
inductive PublishToTopicOutcome where
  | validationError
  | publishAttempted (body : String)
  deriving DecidableEq, Repr

/-- `Interface.prototype.publishToTopic` up to its single backend call:
reject the message when `validateMessageStructure` fails, otherwise call
`sns.publish` with the stringified message. -/
def publishToTopic (message : JVal) : PublishToTopicOutcome :=
  if validateMessageStructure message then .publishAttempted (stringifyJVal message)
  else .validationError

/-- `Interface.prototype.convertToGcmFormat` of the extended revision: a
string is wrapped as `data.message` and stringified into a `GCM`/`ADM`
container (keyed by platform); an object with a truthy `GCM`, `ADM` or
`default` property is passed through unchanged; any other truthy object is
stringified into the container; everything else is an error.  The
`callback(err, result)` convention is rendered as `Except`. -/
def convertToGcmFormat (platform : String) (message : JVal) : Except String JVal :=
  let key := if platform = "ANDROID" then "GCM" else "ADM"
  match message with
  | .str s =>
    .ok (.obj [(key, .str (stringifyJVal (.obj [("data", .obj [("message", .str s)])])))])
  | m =>
    if truthy m && typeofObject m then
      if truthy (getProp m "GCM") || truthy (getProp m "ADM")
          || truthy (getProp m "default") then
        .ok m
      else
        .ok (.obj [(key, .str (stringifyJVal m))])
    else
      .error "Unable to convert message to ADM/GCM format. Message must be String/Object."

/-- `Interface.prototype.convertToApnsFormat` of the extended revision: a
string is wrapped as `aps.alert` and stringified into an `APNS` /
`APNS_SANDBOX` container (keyed by the sandbox flag); an object with a
truthy `APNS_SANDBOX` or `APNS` property is passed through unchanged; any
other non-null object is stringified into the container; everything else is
an error. -/
def convertToApnsFormat (sandbox : Bool) (message : JVal) : Except String JVal :=
  let key := if sandbox then "APNS_SANDBOX" else "APNS"
  match message with
  | .str s =>
    .ok (.obj [(key, .str (stringifyJVal (.obj [("aps", .obj [("alert", .str s)])])))])
  | m =>
    if !(m matches .null) && typeofObject m then
      if truthy (getProp m "APNS_SANDBOX") || truthy (getProp m "APNS") then
        .ok m
      else
        .ok (.obj [(key, .str (stringifyJVal m))])
    else
      .error "Unable to convert message to APNS format. Message must be String/Object."

/-- `SUPPORTED_PLATFORMS` of the extended revision: the own property names
of the platform map. -/
def SUPPORTED_PLATFORMS : List String :=
  ["ANDROID", "IOS", "KINDLE_FIRE", "android", "ios"]

/-- `deviceSupported` of the extended revision:
`SUPPORTED_PLATFORMS.hasOwnProperty(platform)`. -/
def deviceSupported (platform : String) : Bool :=
  SUPPORTED_PLATFORMS.contains platform

/-- The constructor options the `Interface` constructor reads (the remaining
options are forwarded verbatim to the AWS client and never branch). -/
structure InterfaceOpts where
  platform : String
  platformApplicationArn : String
  sandbox : Bool
  deriving DecidableEq, Repr

/-- The instance state the constructor writes.  `snsClientCreated` records
that the AWS.SNS collaborator was constructed (or adopted from `opts.sns`);
its configuration is outside the modelled core. -/
structure InterfaceState where
  platformApplicationArn : String
  platform : String
  sandbox : Bool
  snsClientCreated : Bool
  deriving DecidableEq, Repr

/-- The `Interface` constructor: throw (`Except.error` with the thrown
message) when `deviceSupported` rejects the platform — before any instance
field is assigned or any client is built — otherwise assign the fields and
create the SNS client. -/
def Interface.mk (opts : InterfaceOpts) : Except String InterfaceState :=
  if !deviceSupported opts.platform then
    .error ("Unsupported platform option, \"" ++ opts.platform ++
      "\". Please provide a platform from SNS.SUPPORTED_PLATFORMS")
  else
    .ok { platformApplicationArn := opts.platformApplicationArn
          platform := opts.platform
          sandbox := opts.sandbox
          snsClientCreated := true }

example : publishToTopic (.obj [("default", .str "")]) = .validationError := by decide

example : publishToTopic (.obj [("default", .str "hi"), ("GCM", .str "x")])
    = .publishAttempted "\x7b\"default\":\"hi\",\"GCM\":\"x\"\x7d" := by decide

example : (Interface.mk ⟨"blackberry", "arn", false⟩).isOk = false := by decide

/-! ## Lemmas about the pagination traversal -/

theorem getUsersAux_absent {ε α : Type} (backend : List (Except ε (Page α)))
    (token : JSVal) (acc : List α) (h : tokenPresent token = false) :
    getUsersAux backend token acc = (.done none (some acc), []) := by
  simp [getUsersAux.eq_def, h]

theorem getUsersAux_err {ε α : Type} (tl : List (Except ε (Page α))) (e : ε)
    (token : JSVal) (acc : List α) (h : tokenPresent token = true) :
    getUsersAux (.error e :: tl) token acc
      = (.done (some e) (some acc), [reqToken token]) := by
  simp [getUsersAux.eq_def, h]

theorem getUsersAux_ok {ε α : Type} (tl : List (Except ε (Page α))) (p : Page α)
    (token : JSVal) (acc : List α) (h : tokenPresent token = true) :
    getUsersAux (.ok p :: tl) token acc
      = ((getUsersAux tl p.NextToken (acc ++ p.Endpoints)).1,
         reqToken token :: (getUsersAux tl p.NextToken (acc ++ p.Endpoints)).2) := by
  conv_lhs => rw [getUsersAux.eq_def]
  simp [h]

theorem getUsersAux_okRun {ε α : Type} (pages : List (Page α)) (last : Page α) :
    ∀ (token : JSVal) (acc : List α),
      tokenPresent token = true →
      (∀ p ∈ pages, tokenPresent p.NextToken = true) →
      tokenPresent last.NextToken = false →
      getUsersAux (ε := ε) (List.map Except.ok (pages ++ [last])) token acc
        = (.done none (some (acc ++ (pages.map Page.Endpoints).flatten ++ last.Endpoints)),
           reqToken token :: pages.map fun p => reqToken p.NextToken) := by
  induction pages with
  | nil =>
    intro token acc ht _ hl
    rw [List.nil_append, List.map_cons, List.map_nil,
      getUsersAux_ok _ _ _ _ ht, getUsersAux_absent _ _ _ hl]
    simp
  | cons q qs ih =>
    intro token acc ht hall hl
    rw [List.cons_append, List.map_cons, getUsersAux_ok _ _ _ _ ht,
      ih q.NextToken (acc ++ q.Endpoints) (hall q (List.mem_cons_self q qs))
        (fun p hp => hall p (List.mem_cons_of_mem q hp)) hl]
    simp [List.append_assoc]

theorem getUsersAux_errRun {ε α : Type} (mids : List (Page α)) (e : ε)
    (tail : List (Except ε (Page α))) :
    ∀ (token : JSVal) (acc : List α),
      tokenPresent token = true →
      (∀ q ∈ mids, tokenPresent q.NextToken = true) →
      getUsersAux (List.map Except.ok mids ++ .error e :: tail) token acc
        = (.done (some e) (some (acc ++ (mids.map Page.Endpoints).flatten)),
           reqToken token :: mids.map fun q => reqToken q.NextToken) := by
  induction mids with
  | nil =>
    intro token acc ht _
    rw [List.map_nil, List.nil_append, getUsersAux_err _ _ _ _ ht]
    simp
  | cons q qs ih =>
    intro token acc ht hall
    rw [List.map_cons, List.cons_append, getUsersAux_ok _ _ _ _ ht,
      ih q.NextToken (acc ++ q.Endpoints) (hall q (List.mem_cons_self q qs))
        (fun p hp => hall p (List.mem_cons_of_mem q hp))]
    simp [List.append_assoc]





/-! ## Claims about the pagination engine (C1, C2, C5) -/

/-- C1 (corrected): when a `_getUsers` call after the first fails, `getUsers`
surfaces exactly that error as the callback's error argument — but the
callback's data argument is not `null`: the final `async.whilst` handler runs
`callback(err, users)`, so the caller receives the items accumulated from the
pages fetched before the failure.  The claim's "the caller never receives any
of the items accumulated" is therefore false; only a first-fetch failure
passes `null` data. -/
theorem c1_error_with_partial_data {ε α : Type} (p : Page α) (mids : List (Page α))
    (e : ε) (tail : List (Except ε (Page α)))
    (h1 : tokenPresent p.NextToken = true)
    (h2 : ∀ q ∈ mids, tokenPresent q.NextToken = true) :
    getUsers (Except.ok p :: (List.map Except.ok mids ++ .error e :: tail))
      = (.done (some e) (some (p.Endpoints ++ (mids.map Page.Endpoints).flatten)),
         none :: reqToken p.NextToken :: mids.map fun q => reqToken q.NextToken) := by
  rw [getUsers]
  rw [getUsersAux_errRun mids e tail p.NextToken p.Endpoints h1 h2]

/-- C1 counterexample: one successful page `["a"]` with a live token followed
by a failing fetch.  The callback receives the error `"boom"` *and* the
partial collection `["a"]` as its data argument, contradicting the claim that
no accumulated item ever reaches the caller. -/
theorem c1_counterexample :
    getUsers (ε := String) [Except.ok ⟨["a"], JSVal.str "t"⟩, Except.error "boom"]
      = (.done (some "boom") (some ["a"]), [none, some "t"])
    ∧ (some ["a"] : Option (List String)) ≠ some [] := by
  constructor
  · decide
  · decide

/-- C1 witness: the amended theorem applied to a concrete run. -/
theorem c1_witness :
    getUsers (ε := String)
      (Except.ok ⟨["a", "b"], JSVal.str "t1"⟩ ::
        (List.map Except.ok [⟨["c"], JSVal.str "t2"⟩] ++ Except.error "down" :: []))
      = (.done (some "down") (some ["a", "b", "c"]), [none, some "t1", some "t2"]) := by
  rw [c1_error_with_partial_data ⟨["a", "b"], JSVal.str "t1"⟩ [⟨["c"], JSVal.str "t2"⟩]
    "down" [] (by decide) (by decide)]
  decide

/-- C2 (confirmed): over a backend of `N` pages that all carry a cursor
followed by a final page with no cursor, with every fetch succeeding,
`getUsers` calls back with no error and exactly the concatenation of the
pages' item arrays in page order then within-page order, and issues exactly
`N + 1` backend requests. -/
theorem c2_concatenates_all_pages {ε α : Type} (pages : List (Page α)) (last : Page α)
    (h1 : ∀ p ∈ pages, tokenPresent p.NextToken = true)
    (h2 : tokenPresent last.NextToken = false) :
    getUsers (ε := ε) (List.map Except.ok (pages ++ [last]))
      = (.done none (some (((pages ++ [last]).map Page.Endpoints).flatten)),
         none :: pages.map fun p => reqToken p.NextToken)
    ∧ (getUsers (ε := ε) (List.map Except.ok (pages ++ [last]))).2.length
        = pages.length + 1 := by
  have hmain : getUsers (ε := ε) (List.map Except.ok (pages ++ [last]))
      = (.done none (some (((pages ++ [last]).map Page.Endpoints).flatten)),
         none :: pages.map fun p => reqToken p.NextToken) := by
    cases pages with
    | nil =>
      rw [List.nil_append, List.map_cons, List.map_nil, getUsers,
        getUsersAux_absent _ _ _ h2]
      simp
    | cons q qs =>
      rw [List.cons_append, List.map_cons, getUsers,
        getUsersAux_okRun qs last q.NextToken q.Endpoints
          (h1 q (List.mem_cons_self q qs))
          (fun p hp => h1 p (List.mem_cons_of_mem q hp)) h2]
      simp [List.append_assoc]
  refine ⟨hmain, ?_⟩
  rw [hmain]
  simp

/-- C2 witness: two cursor-carrying pages then a final page, all succeeding. -/
theorem c2_witness :
    getUsers (ε := Unit)
      (List.map Except.ok
        ([⟨["a", "b"], JSVal.str "t1"⟩, ⟨["c"], JSVal.str "t2"⟩] ++ [⟨["d"], JSVal.null⟩]))
      = (.done none (some ["a", "b", "c", "d"]), [none, some "t1", some "t2"])
    ∧ (getUsers (ε := Unit)
        (List.map Except.ok
          ([⟨["a", "b"], JSVal.str "t1"⟩, ⟨["c"], JSVal.str "t2"⟩] ++ [⟨["d"], JSVal.null⟩]))).2.length
        = 3 := by
  have h := c2_concatenates_all_pages (ε := Unit)
    [⟨["a", "b"], JSVal.str "t1"⟩, ⟨["c"], JSVal.str "t2"⟩] ⟨["d"], JSVal.null⟩
    (by decide) (by decide)
  refine ⟨?_, ?_⟩
  · rw [h.1]; decide
  · rw [h.2]; decide

/-- C5 (corrected): the whilst guard is only
`typeof nextToken !== 'undefined' && nextToken !== null`, so the traversal
terminates after a page exactly when its `NextToken` is `undefined` or
`null`.  An empty-string `NextToken` passes the guard: another fetch *is*
issued — though, because `if (nextToken)` is false for `''`, that request
carries no `NextToken` parameter. -/
theorem c5_empty_string_continues {ε α : Type} (p : Page α) (r : Except ε (Page α))
    (rest : List (Except ε (Page α))) :
    (tokenPresent p.NextToken = false →
      getUsers (Except.ok p :: r :: rest) = (.done none (some p.Endpoints), [none]))
    ∧ (tokenPresent p.NextToken = true →
      ((getUsers (Except.ok p :: r :: rest)).2).get? 1 = some (reqToken p.NextToken))
    ∧ tokenPresent (JSVal.str "") = true
    ∧ reqToken (JSVal.str "") = none := by
  refine ⟨?_, ?_, by decide, by decide⟩
  · intro h
    rw [getUsers, getUsersAux_absent _ _ _ h]
  · intro h
    cases r with
    | error e =>
      rw [getUsers, getUsersAux_err _ _ _ _ h]
      simp
    | ok q =>
      rw [getUsers, getUsersAux_ok _ _ _ _ h]
      simp

/-- C5 counterexample: the first page's `NextToken` is the empty string, yet
the run makes a second backend call (two request entries) instead of
terminating after one. -/
theorem c5_counterexample :
    getUsers (ε := Unit)
      [Except.ok ⟨["a"], JSVal.str ""⟩, Except.ok ⟨([] : List String), JSVal.undefined⟩]
      = (.done none (some ["a"]), [none, none])
    ∧ (2 : Nat) ≠ 1 := by
  constructor
  · decide
  · decide

/-- C5 witness: the amended theorem applied to a concrete empty-string-token
run — the second request goes out and carries no token. -/
theorem c5_witness :
    ((getUsers (ε := Unit)
      [Except.ok ⟨["a"], JSVal.str ""⟩, Except.ok ⟨([] : List String), JSVal.undefined⟩]).2).get? 1
      = some none := by
  have h := (c5_empty_string_continues (ε := Unit) ⟨["a"], JSVal.str ""⟩
    (Except.ok ⟨([] : List String), JSVal.undefined⟩) []).2.1 (by decide)
  rw [h]
  decide

/-! ## Lemmas about the broadcast engine -/

/-- Recognises the `broadcastStart` event. -/
def isBStart {ε σ α : Type} : BEvent ε σ α → Bool
  | .bStart => true
  | _ => false

/-- Recognises the `broadcastEnd` event. -/
def isBEnd {ε σ α : Type} : BEvent ε σ α → Bool
  | .bEnd => true
  | _ => false

/-- Recognises a completion callback with no error. -/
def isCbDoneNone {ε σ α : Type} : BEvent ε σ α → Bool
  | .cbDone none => true
  | _ => false

theorem broadcastAux_absent {ε σ α : Type} (send : α → Except σ Unit)
    (backend : List (Except ε (Page α))) (token : JSVal)
    (h : tokenPresent token = false) :
    broadcastAux send backend token = [.bEnd, .cbDone none] := by
  simp [broadcastAux.eq_def, h]

theorem broadcastAux_nil {ε σ α : Type} (send : α → Except σ Unit) (token : JSVal)
    (h : tokenPresent token = true) :
    broadcastAux (ε := ε) send [] token = [.listReq (reqToken token)] := by
  simp [broadcastAux.eq_def, h]

theorem broadcastAux_err {ε σ α : Type} (send : α → Except σ Unit)
    (tl : List (Except ε (Page α))) (e : ε) (token : JSVal)
    (h : tokenPresent token = true) :
    broadcastAux send (.error e :: tl) token
      = [.listReq (reqToken token), .bEnd, .cbDone (some e)] := by
  simp [broadcastAux.eq_def, h]

theorem broadcastAux_ok {ε σ α : Type} (send : α → Except σ Unit)
    (tl : List (Except ε (Page α))) (p : Page α) (token : JSVal)
    (h : tokenPresent token = true) :
    broadcastAux send (.ok p :: tl) token
      = .listReq (reqToken token) ::
          (broadcastPage send p.Endpoints ++ broadcastAux send tl p.NextToken) := by
  conv_lhs => rw [broadcastAux.eq_def]
  simp [h]

theorem auxComplete_absent {ε α : Type} (backend : List (Except ε (Page α)))
    (token : JSVal) (h : tokenPresent token = false) :
    auxComplete backend token = true := by
  simp [auxComplete.eq_def, h]

theorem auxComplete_ok {ε α : Type} (tl : List (Except ε (Page α))) (p : Page α)
    (token : JSVal) (h : tokenPresent token = true) :
    auxComplete (.ok p :: tl) token = auxComplete tl p.NextToken := by
  conv_lhs => rw [auxComplete.eq_def]
  simp [h]

/-- Every event of a page fan-out is a settled send. -/
theorem broadcastPage_isSend {ε σ α : Type} (send : α → Except σ Unit)
    (endpoints : List α) :
    ∀ x ∈ broadcastPage (ε := ε) send endpoints, isSendEvent x = true := by
  intro x hx
  rw [broadcastPage, List.mem_map] at hx
  obtain ⟨a, _, hEq⟩ := hx
  cases hsend : send a <;> rw [hsend] at hEq <;> rw [← hEq] <;> rfl

/-- A settled send is none of the other event kinds. -/
theorem isSendEvent_not_other {ε σ α : Type} (x : BEvent ε σ α)
    (h : isSendEvent x = true) :
    isBStart x = false ∧ isBEnd x = false ∧ isCbDoneNone x = false
      ∧ isCbDoneErr x = false ∧ isListReq x = false := by
  cases x <;> simp_all [isSendEvent, isBStart, isBEnd, isCbDoneNone, isCbDoneErr, isListReq]

theorem broadcastPage_countP_zero {ε σ α : Type} (send : α → Except σ Unit)
    (endpoints : List α) (p : BEvent ε σ α → Bool)
    (hp : ∀ x, isSendEvent x = true → p x = false) :
    (broadcastPage (ε := ε) send endpoints).countP p = 0 := by
  rw [List.countP_eq_zero]
  intro x hx
  rw [hp x (broadcastPage_isSend send endpoints x hx)]
  simp

theorem broadcastPage_length {ε σ α : Type} (send : α → Except σ Unit)
    (endpoints : List α) :
    (broadcastPage (ε := ε) send endpoints).length = endpoints.length := by
  rw [broadcastPage, List.length_map]

/-- A complete whilst tail settles with exactly `broadcastEnd` and one
completion callback, preceded only by sends and listing requests. -/
theorem broadcastAux_decomp {ε σ α : Type} (send : α → Except σ Unit) :
    ∀ (backend : List (Except ε (Page α))) (token : JSVal),
      auxComplete backend token = true →
      ∃ pre err, broadcastAux send backend token = pre ++ [.bEnd, .cbDone err]
        ∧ ∀ x ∈ pre, isBStart x = false ∧ isBEnd x = false
            ∧ isCbDoneNone x = false ∧ isCbDoneErr x = false := by
  intro backend
  induction backend with
  | nil =>
    intro token hc
    by_cases ht : tokenPresent token
    · rw [auxComplete.eq_def] at hc
      simp [ht] at hc
    · exact ⟨[], none, by rw [broadcastAux_absent send [] token (by simpa using ht)]; simp,
        by simp⟩
  | cons r rest ih =>
    intro token hc
    by_cases ht : tokenPresent token
    · cases r with
      | error e =>
        refine ⟨[.listReq (reqToken token)], some e, ?_, ?_⟩
        · rw [broadcastAux_err send rest e token ht]
          simp
        · intro x hx
          rw [List.mem_singleton] at hx
          subst hx
          exact ⟨rfl, rfl, rfl, rfl⟩
      | ok p =>
        rw [auxComplete_ok rest p token ht] at hc
        obtain ⟨pre, err, hEq, hpre⟩ := ih p.NextToken hc
        refine ⟨.listReq (reqToken token) :: (broadcastPage send p.Endpoints ++ pre),
          err, ?_, ?_⟩
        · rw [broadcastAux_ok send rest p token ht, hEq]
          simp
        · intro x hx
          rw [List.mem_cons, List.mem_append] at hx
          rcases hx with hx | hx | hx
          · subst hx
            exact ⟨rfl, rfl, rfl, rfl⟩
          · have hs := broadcastPage_isSend send p.Endpoints x hx
            have := isSendEvent_not_other x hs
            exact ⟨this.1, this.2.1, this.2.2.1, this.2.2.2.1⟩
          · exact hpre x hx
    · exact ⟨[], none,
        by rw [broadcastAux_absent send _ token (by simpa using ht)]; simp, by simp⟩

/-- In an all-success listing run, the whilst tail calls back exactly once,
with no error. -/
theorem broadcastAux_count_allOk {ε σ α : Type} (send : α → Except σ Unit) :
    ∀ (backend : List (Except ε (Page α))) (token : JSVal),
      (∀ r ∈ backend, ∃ p, r = Except.ok p) →
      auxComplete backend token = true →
      (broadcastAux send backend token).countP isCbDoneNone = 1
        ∧ (broadcastAux send backend token).countP isCbDoneErr = 0 := by
  intro backend
  induction backend with
  | nil =>
    intro token _ hc
    by_cases ht : tokenPresent token
    · rw [auxComplete.eq_def] at hc
      simp [ht] at hc
    · rw [broadcastAux_absent send [] token (by simpa using ht)]
      constructor <;> rfl
  | cons r rest ih =>
    intro token hok hc
    by_cases ht : tokenPresent token
    · obtain ⟨p, rfl⟩ := hok r (List.mem_cons_self r rest)
      rw [auxComplete_ok rest p token ht] at hc
      have hrest := ih p.NextToken (fun q hq => hok q (List.mem_cons_of_mem _ hq)) hc
      rw [broadcastAux_ok send rest p token ht]
      rw [List.countP_cons, List.countP_append, List.countP_cons, List.countP_append]
      rw [broadcastPage_countP_zero send p.Endpoints isCbDoneNone
          (fun x hx => (isSendEvent_not_other x hx).2.2.1),
        broadcastPage_countP_zero send p.Endpoints isCbDoneErr
          (fun x hx => (isSendEvent_not_other x hx).2.2.2.1),
        hrest.1, hrest.2]
      constructor <;> rfl
    · rw [broadcastAux_absent send _ token (by simpa using ht)]
      constructor <;> rfl

theorem takeWhile_append_stop {β : Type} (p : β → Bool) :
    ∀ (l₁ : List β) (y : β) (l₂ : List β),
      (∀ x ∈ l₁, p x = true) → p y = false →
      (l₁ ++ y :: l₂).takeWhile p = l₁ := by
  intro l₁
  induction l₁ with
  | nil =>
    intro y l₂ _ hy
    simp [List.takeWhile_cons, hy]
  | cons a t ih =>
    intro y l₂ h hy
    rw [List.cons_append, List.takeWhile_cons, h a (List.mem_cons_self a t)]
    simp [ih y l₂ (fun x hx => h x (List.mem_cons_of_mem a hx)) hy]

/-- A complete whilst tail, prefixed with a pending page's fan-out, has the
block shape: a sequence of (page sends, next listing request) blocks followed
by the final page's sends, `broadcastEnd` and the completion callback. -/
theorem broadcastAux_blocks {ε σ α : Type} (send : α → Except σ Unit) :
    ∀ (backend : List (Except ε (Page α))) (token : JSVal) (pend : List α),
      auxComplete backend token = true →
      ∃ (blks : List (List α × Option String)) (lastPage : List α) (err : Option ε),
        broadcastPage send pend ++ broadcastAux send backend token
          = (blks.map (pageBlock send)).flatten
              ++ (broadcastPage send lastPage ++ [.bEnd, .cbDone err]) := by
  intro backend
  induction backend with
  | nil =>
    intro token pend hc
    by_cases ht : tokenPresent token
    · exfalso
      rw [auxComplete.eq_def] at hc
      simp [ht] at hc
    · exact ⟨[], pend, none,
        by rw [broadcastAux_absent send [] token (by simpa using ht)]; simp⟩
  | cons r rest ih =>
    intro token pend hc
    by_cases ht : tokenPresent token
    · cases r with
      | error e =>
        refine ⟨[(pend, reqToken token)], [], some e, ?_⟩
        rw [broadcastAux_err send rest e token ht]
        simp [pageBlock, broadcastPage]
      | ok p =>
        rw [auxComplete_ok rest p token ht] at hc
        obtain ⟨blks, lastPage, err, hEq⟩ := ih p.NextToken p.Endpoints hc
        refine ⟨(pend, reqToken token) :: blks, lastPage, err, ?_⟩
        rw [broadcastAux_ok send rest p token ht, hEq, List.map_cons, List.flatten_cons]
        simp [pageBlock, List.append_assoc]
    · exact ⟨[], pend, none,
        by rw [broadcastAux_absent send _ token (by simpa using ht)]; simp⟩

/-! ## Claims about the broadcast engine (C3, C4, C6, C7) -/

/-- C3 (confirmed): when every listing call succeeds (and is answered), the
completion callback of `broadcastMessage` fires exactly once and carries no
error, whatever the per-endpoint send outcomes are — `_broadcastMessage`
swallows send errors (`cb()`), which therefore surface only as `sendFailed`
events, never through the completion callback. -/
theorem c3_sends_never_fail_broadcast {ε σ α : Type} (send : α → Except σ Unit)
    (backend : List (Except ε (Page α)))
    (h1 : ∀ r ∈ backend, ∃ p, r = Except.ok p)
    (h2 : runComplete backend = true) :
    (broadcastMessage send backend).countP isCbDoneNone = 1
      ∧ (broadcastMessage send backend).countP isCbDoneErr = 0 := by
  cases backend with
  | nil => simp [runComplete] at h2
  | cons r rest =>
    obtain ⟨p, rfl⟩ := h1 r (List.mem_cons_self r rest)
    rw [runComplete] at h2
    have haux := broadcastAux_count_allOk send rest p.NextToken
      (fun q hq => h1 q (List.mem_cons_of_mem _ hq)) h2
    have hz1 := broadcastPage_countP_zero (ε := ε) send p.Endpoints isCbDoneNone
      (fun x hx => (isSendEvent_not_other x hx).2.2.1)
    have hz2 := broadcastPage_countP_zero (ε := ε) send p.Endpoints isCbDoneErr
      (fun x hx => (isSendEvent_not_other x hx).2.2.2.1)
    constructor
    · simp [broadcastMessage, List.countP_cons, List.countP_append, hz1, haux.1,
        isCbDoneNone]
    · simp [broadcastMessage, List.countP_cons, List.countP_append, hz2, haux.2,
        isCbDoneErr]

/-- C3 witness: a single page of two endpoints where the send to `"a"`
fails — the completion callback still fires once with no error. -/
theorem c3_witness :
    (broadcastMessage (ε := Unit) (σ := String)
      (fun a => if a = "a" then Except.error "fail" else Except.ok ())
      [Except.ok ⟨["a", "b"], JSVal.undefined⟩]).countP isCbDoneNone = 1
    ∧ (broadcastMessage (ε := Unit) (σ := String)
        (fun a => if a = "a" then Except.error "fail" else Except.ok ())
        [Except.ok ⟨["a", "b"], JSVal.undefined⟩]).countP isCbDoneErr = 0 :=
  c3_sends_never_fail_broadcast
    (fun a => if a = "a" then Except.error "fail" else Except.ok ())
    [Except.ok ⟨["a", "b"], JSVal.undefined⟩]
    (by intro r hr; rw [List.mem_singleton] at hr; exact ⟨_, hr⟩)
    (by decide)

/-- C4 (corrected): when the *first* listing call succeeds and every later
listing call is answered, `broadcastMessage` emits exactly one
`broadcastStart` and one `broadcastEnd`, the start strictly before the end
(the prefix of the trace before the only `broadcastEnd` contains the one
`broadcastStart`), regardless of later listing errors or send failures.  But
when the first listing call fails, the run returns `callback(err, null)`
before `broadcastStart` is ever emitted, so neither event fires — refuting
the claim's "including a failure of the very first page-listing call". -/
theorem c4_one_start_one_end {ε σ α : Type} (send : α → Except σ Unit) (p : Page α)
    (rest : List (Except ε (Page α))) (e : ε) (rest₂ : List (Except ε (Page α)))
    (h : auxComplete rest p.NextToken = true) :
    (broadcastMessage send (.ok p :: rest)).countP isBStart = 1
    ∧ (broadcastMessage send (.ok p :: rest)).countP isBEnd = 1
    ∧ ((broadcastMessage send (.ok p :: rest)).takeWhile
        (fun x => !isBEnd x)).countP isBStart = 1
    ∧ broadcastMessage send (.error e :: rest₂) = [.listReq none, .cbDone (some e)] := by
  obtain ⟨pre, err, hEq, hpre⟩ := broadcastAux_decomp send rest p.NextToken h
  have hz1 := broadcastPage_countP_zero (ε := ε) send p.Endpoints isBStart
    (fun x hx => (isSendEvent_not_other x hx).1)
  have hz2 := broadcastPage_countP_zero (ε := ε) send p.Endpoints isBEnd
    (fun x hx => (isSendEvent_not_other x hx).2.1)
  have hpre1 : pre.countP isBStart = 0 :=
    List.countP_eq_zero.mpr (fun x hx => by simp [(hpre x hx).1])
  have hpre2 : pre.countP isBEnd = 0 :=
    List.countP_eq_zero.mpr (fun x hx => by simp [(hpre x hx).2.1])
  refine ⟨?_, ?_, ?_, rfl⟩
  · simp [broadcastMessage, hEq, List.countP_cons, List.countP_append, hz1, hpre1,
      isBStart]
  · simp [broadcastMessage, hEq, List.countP_cons, List.countP_append, hz2, hpre2,
      isBEnd]
  · have hl : broadcastMessage send (.ok p :: rest)
        = (.listReq none :: .bStart :: (broadcastPage send p.Endpoints ++ pre))
            ++ .bEnd :: [.cbDone err] := by
      simp [broadcastMessage, hEq, List.append_assoc]
    rw [hl, takeWhile_append_stop _ _ _ _ ?hall (by rfl)]
    · simp [List.countP_cons, List.countP_append, hz1, hpre1, isBStart]
    case hall =>
      intro x hx
      rw [List.mem_cons, List.mem_cons, List.mem_append] at hx
      rcases hx with rfl | rfl | hx | hx
      · rfl
      · rfl
      · simp [(isSendEvent_not_other x (broadcastPage_isSend send p.Endpoints x hx)).2.1]
      · simp [(hpre x hx).2.1]

/-- C4 counterexample: the very first listing call fails; the trace contains
no `broadcastStart` (and no `broadcastEnd`) at all, contradicting "exactly
one ... regardless of any listing failure, including the very first". -/
theorem c4_counterexample :
    broadcastMessage (ε := String) (σ := String) (α := String)
      (fun _ => Except.ok ()) [Except.error "boom"]
      = [.listReq none, .cbDone (some "boom")]
    ∧ (broadcastMessage (ε := String) (σ := String) (α := String)
        (fun _ => Except.ok ()) [Except.error "boom"]).countP isBStart = 0 := by
  constructor
  · rfl
  · rfl

/-- C4 witness: the amended theorem applied to a one-page run. -/
theorem c4_witness :
    (broadcastMessage (ε := String) (σ := String)
      (fun (_ : String) => Except.ok ()) [Except.ok ⟨["a"], JSVal.undefined⟩]).countP
        isBStart = 1 :=
  (c4_one_start_one_end (fun (_ : String) => Except.ok ())
    ⟨["a"], JSVal.undefined⟩ [] "x" [] (by decide)).1

/-- C6 (confirmed): when the listing call for the second page of a broadcast
fails, the run is exactly: first listing, `broadcastStart`, the first page's
settled sends, the failing second listing, `broadcastEnd`, and the completion
callback carrying that listing error.  In particular exactly two listing
requests go out (none after the failing one) and the settled sends are
exactly the first page's — no endpoint of any later page is dispatched to. -/
theorem c6_mid_listing_failure_aborts {ε σ α : Type} (send : α → Except σ Unit)
    (p1 : Page α) (e : ε) (rest : List (Except ε (Page α)))
    (h : tokenPresent p1.NextToken = true) :
    broadcastMessage send (.ok p1 :: .error e :: rest)
      = .listReq none :: .bStart ::
          (broadcastPage send p1.Endpoints
            ++ [.listReq (reqToken p1.NextToken), .bEnd, .cbDone (some e)])
    ∧ (broadcastMessage send (.ok p1 :: .error e :: rest)).countP isListReq = 2
    ∧ (broadcastMessage send (.ok p1 :: .error e :: rest)).countP isSendEvent
        = p1.Endpoints.length := by
  have hmain : broadcastMessage send (.ok p1 :: .error e :: rest)
      = .listReq none :: .bStart ::
          (broadcastPage send p1.Endpoints
            ++ [.listReq (reqToken p1.NextToken), .bEnd, .cbDone (some e)]) := by
    rw [broadcastMessage, broadcastAux_err send rest e p1.NextToken h]
  have hfull : (broadcastPage (ε := ε) send p1.Endpoints).countP isSendEvent
      = p1.Endpoints.length := by
    rw [List.countP_eq_length.mpr
      (fun x hx => by simpa using broadcastPage_isSend send p1.Endpoints x hx)]
    exact broadcastPage_length send p1.Endpoints
  have hz := broadcastPage_countP_zero (ε := ε) send p1.Endpoints isListReq
    (fun x hx => (isSendEvent_not_other x hx).2.2.2.2)
  refine ⟨hmain, ?_, ?_⟩
  · rw [hmain]
    simp [List.countP_cons, List.countP_append, hz, isListReq]
  · rw [hmain]
    simp [List.countP_cons, List.countP_append, hfull, isSendEvent]

/-- C6 witness: a concrete two-page attempt whose second listing fails. -/
theorem c6_witness :
    broadcastMessage (ε := String) (σ := String)
      (fun (_ : String) => Except.ok ())
      [Except.ok ⟨["a"], JSVal.str "t"⟩, Except.error "down"]
      = [.listReq none, .bStart, .sendOk "a", .listReq (some "t"), .bEnd,
         .cbDone (some "down")] := by
  have h := (c6_mid_listing_failure_aborts
    (fun (_ : String) => (Except.ok () : Except String Unit))
    ⟨["a"], JSVal.str "t"⟩ "down" [] (by decide)).1
  rw [h]
  rfl

/-- C7 (confirmed): a broadcast run whose listing calls are all answered has
the block shape — after the first listing and `broadcastStart`, the trace is
a sequence of blocks, each consisting of one page's fully settled sends
followed by the next listing request, then the final page's settled sends,
`broadcastEnd`, and the completion callback last.  Hence all of page N's
sends settle before the listing call for page N+1 goes out, and the
completion callback fires only after every fetched page's sends have
settled.  (In the source this ordering is forced by `async.each` invoking
`_broadcastMessage`'s callback only after every send settled, and by
`async.whilst` issuing the next `_getUsers` only from that callback.) -/
theorem c7_sends_settle_before_next_fetch {ε σ α : Type} (send : α → Except σ Unit)
    (p : Page α) (rest : List (Except ε (Page α)))
    (h : auxComplete rest p.NextToken = true) :
    ∃ (blks : List (List α × Option String)) (lastPage : List α) (err : Option ε),
      broadcastMessage send (.ok p :: rest)
        = .listReq none :: .bStart ::
            ((blks.map (pageBlock send)).flatten
              ++ (broadcastPage send lastPage ++ [.bEnd, .cbDone err])) := by
  obtain ⟨blks, lastPage, err, hEq⟩ :=
    broadcastAux_blocks send rest p.NextToken p.Endpoints h
  exact ⟨blks, lastPage, err, by rw [broadcastMessage, hEq]⟩

/-- C7 witness: the theorem applied to a concrete two-page run. -/
theorem c7_witness :
    auxComplete (ε := String) [Except.ok ⟨["c"], JSVal.undefined⟩] (JSVal.str "t") = true
    ∧ broadcastMessage (ε := String) (σ := String)
        (fun (_ : String) => Except.ok ())
        [Except.ok ⟨["a"], JSVal.str "t"⟩, Except.ok ⟨["c"], JSVal.undefined⟩] ≠ [] := by
  refine ⟨by decide, ?_⟩
  obtain ⟨blks, lastPage, err, hEq⟩ :=
    c7_sends_settle_before_next_fetch (ε := String)
      (fun (_ : String) => (Except.ok () : Except String Unit))
      ⟨["a"], JSVal.str "t"⟩ [Except.ok ⟨["c"], JSVal.undefined⟩] (by decide)
  rw [hEq]
  simp

/-! ## Claims about validation, conversion and construction (C8, C9, C10) -/

/-- C8 (corrected): `publishToTopic` checks `!message.default` before the
type check, so the publish is attempted exactly when the `default` property
is a *non-empty* string; an empty-string `default` — a perfectly valid
string — is rejected with the validation error and no backend call, which
refutes "for every message with a string 'default' property, the publish
call is attempted".  The first conjunct gives the full branch behaviour; the
second characterises the accepted messages. -/
theorem c8_default_must_be_nonempty_string (m : JVal) :
    publishToTopic m
      = (if truthy (getProp m "default") && isString (getProp m "default")
          then PublishToTopicOutcome.publishAttempted (stringifyJVal m)
          else PublishToTopicOutcome.validationError)
    ∧ (validateMessageStructure m = true
        ↔ ∃ s, getProp m "default" = JVal.str s ∧ s ≠ "") := by
  have hval : validateMessageStructure m
      = (truthy (getProp m "default") && isString (getProp m "default")) := by
    rw [validateMessageStructure]
    by_cases h1 : truthy (getProp m "default")
      <;> by_cases h2 : isString (getProp m "default")
      <;> simp [h1, h2]
  constructor
  · rw [publishToTopic, hval]
  · rw [hval]
    cases hd : getProp m "default" <;> simp [truthy, isString]

/-- C8 counterexample: `default` is the empty string — a string — yet the
message is rejected before any backend call. -/
theorem c8_counterexample :
    publishToTopic (.obj [("default", JVal.str "")]) = .validationError
    ∧ isString (getProp (.obj [("default", JVal.str "")]) "default") = true := by
  constructor
  · rfl
  · rfl

/-- C9 (corrected): the pass-through branch of the converters tests
*truthiness* (`message.GCM || message.ADM || message.default`, resp.
`message['APNS_SANDBOX'] || message['APNS']`), so an object message is
returned unchanged exactly when one of those properties is present with a
truthy value; a message merely *having* the property with a falsy value
(e.g. `GCM: ""`) is re-wrapped instead.  On the unchanged messages
converting twice trivially equals converting once. -/
theorem c9_identity_on_truthy_converted (platform : String) (sandbox : Bool)
    (fs : List (String × JVal)) :
    (truthy (getProp (.obj fs) "GCM") = true ∨ truthy (getProp (.obj fs) "ADM") = true
        ∨ truthy (getProp (.obj fs) "default") = true →
      convertToGcmFormat platform (.obj fs) = Except.ok (.obj fs))
    ∧ (truthy (getProp (.obj fs) "APNS_SANDBOX") = true
        ∨ truthy (getProp (.obj fs) "APNS") = true →
      convertToApnsFormat sandbox (.obj fs) = Except.ok (.obj fs)) := by
  have hobj : truthy (JVal.obj fs) = true := rfl
  have htyp : typeofObject (JVal.obj fs) = true := rfl
  constructor
  · intro hOr
    rcases hOr with h | h | h <;> simp [convertToGcmFormat, hobj, htyp, h]
  · intro hOr
    rcases hOr with h | h <;> simp [convertToApnsFormat, htyp, h]

/-- C9 counterexample: the message has a `GCM` property, but its value `""`
is falsy, so `convertToGcmFormat` does not return it unchanged — it wraps the
whole message into a fresh stringified container. -/
theorem c9_counterexample :
    convertToGcmFormat "ANDROID" (JVal.obj [("GCM", JVal.str "")])
      ≠ Except.ok (JVal.obj [("GCM", JVal.str "")]) := by
  have heval : convertToGcmFormat "ANDROID" (JVal.obj [("GCM", JVal.str "")])
      = Except.ok (JVal.obj [("GCM", JVal.str "\x7b\"GCM\":\"\"\x7d")]) := rfl
  rw [heval]
  simp

/-- C9 witness: the amended theorem applied to objects whose converted-format
property is truthy. -/
theorem c9_witness :
    convertToGcmFormat "ANDROID" (JVal.obj [("GCM", JVal.str "x")])
      = Except.ok (JVal.obj [("GCM", JVal.str "x")])
    ∧ convertToApnsFormat false (JVal.obj [("APNS", JVal.str "y")])
      = Except.ok (JVal.obj [("APNS", JVal.str "y")]) :=
  ⟨(c9_identity_on_truthy_converted "ANDROID" false [("GCM", JVal.str "x")]).1
      (Or.inl (by decide)),
   (c9_identity_on_truthy_converted "ANDROID" false [("APNS", JVal.str "y")]).2
      (Or.inr (by decide))⟩

/-- C10 (confirmed): the constructor throws exactly when `deviceSupported`
rejects `opts.platform` (no instance state and no SNS client exist in that
case — the error is the only result), and for every supported platform it
returns the fully initialised state with the client created. -/
theorem c10_constructor_platform_check (opts : InterfaceOpts) :
    Interface.mk opts
      = (if deviceSupported opts.platform
          then Except.ok ⟨opts.platformApplicationArn, opts.platform, opts.sandbox, true⟩
          else Except.error ("Unsupported platform option, \"" ++ opts.platform ++
            "\". Please provide a platform from SNS.SUPPORTED_PLATFORMS")) := by
  rw [Interface.mk]
  by_cases h : deviceSupported opts.platform <;> simp [h]
